import Mathlib

/-!
Verification of the toolbox instrumentation/resilience framework of the
sass_web_app repository (src/toolbox and src/aop_error_handler/toolbox).

Shallow embedding notes:
- The two process-wide flags (`ToolBoxManager.DEBUG`, `ToolBoxManager.PING`)
  are threaded explicitly as a `Flags` value.
- Python exceptions are modelled as a runtime class tag plus a message; the
  class hierarchy used by this code base is modelled with `Exception` as the
  root and `KeyError < LookupError < Exception`.
- Log emission is modelled as a returned list of `LogRecord`s; the Python
  `logging` adapter calls in `LogManager.add_info_log` / `add_error_log`
  become list-producing functions gated exactly as the source gates them.
- Observable effects that the claims talk about (which providers ran, whether
  the wrapped target ran) are recorded in an event trace `List Ev`.
- `os.path.relpath(inspect.getfile(f), settings.BASE_DIR)` is not computable
  inside the model; a `Func`/`Fallback` carries its name and its already
  relativised path, exactly the two strings the source derives.
- `tenacity.retry(stop=stop_after_attempt(retries), wait=wait_fixed(delay),
  before_sleep=..., reraise=True)` is modelled by `tenacityRun`: attempt
  numbers are 1-based, the first attempt always runs, after a failed attempt
  number `n` the loop stops (re-raising the underlying exception, because
  `reraise=True`) iff `n >= retries`, and `before_sleep` fires before every
  inter-attempt wait.  The fixed wait itself has no observable effect in the
  model.  A Python callable may close over external mutable state, which is
  how a fallback can fail on one attempt and succeed on a later one; the
  model exposes that state as the attempt number passed to `Fallback.run`.
-/

namespace SassToolbox

/-- Runtime exception classes occurring in the modelled hierarchy. -/
inductive ExcType
  | exception
  | valueError
  | typeError
  | lookupError
  | keyError
  | zeroDivisionError
  | attributeError
  | nameError
deriving DecidableEq

/-- The Python class name of an exception type (`type(e).__name__`). -/
def ExcType.pyName : ExcType → String
  | .exception => "Exception"
  | .valueError => "ValueError"
  | .typeError => "TypeError"
  | .lookupError => "LookupError"
  | .keyError => "KeyError"
  | .zeroDivisionError => "ZeroDivisionError"
  | .attributeError => "AttributeError"
  | .nameError => "NameError"

/-- Python `issubclass` on the modelled hierarchy: every class is a subclass
of itself and of `Exception`, and `KeyError` is a subclass of `LookupError`. -/
def ExcType.issubclass : ExcType → ExcType → Bool
  | _, .exception => true
  | .keyError, .lookupError => true
  | t, u => t == u

/-- A raised Python exception: its runtime class and its message. -/
structure Exc where
  ty : ExcType
  msg : String
deriving DecidableEq

/-- Python `isinstance(e, t)`. -/
def isinstance (e : Exc) (t : ExcType) : Bool :=
  e.ty.issubclass t

/-- The two process-wide flags of `ToolBoxManager`:
`DEBUG = settings.DEBUG` and `PING = config("PING", ...)`. -/
structure Flags where
  DEBUG : Bool
  PING : Bool
deriving DecidableEq

inductive Severity
  | info
  | error
deriving DecidableEq

/-- One record handed to the `toolbox` logger; `context` is the adapter's
`extra` mapping (the source passes `func_name` / `func_path` and any merged
ping context through it). -/
structure LogRecord where
  sev : Severity
  message : String
  context : List (String × String)
deriving DecidableEq

/-- `LogManager.add_info_log`: emits an INFO record only when both `DEBUG`
and `PING` hold, otherwise it returns immediately. -/
def add_info_log (fl : Flags) (message : String)
    (context : List (String × String)) : List LogRecord :=
  if fl.DEBUG && fl.PING then [⟨Severity.info, message, context⟩] else []

/-- `LogManager.add_error_log`: emits an ERROR record whenever `DEBUG` holds,
independently of `PING`. -/
def add_error_log (fl : Flags) (message : String)
    (context : List (String × String)) : List LogRecord :=
  if fl.DEBUG then [⟨Severity.error, message, context⟩] else []

/-- A positional argument of a wrapped call; `user` models the optional
`user` attribute that `catch_error` probes with `hasattr(a, "user")`. -/
structure Arg where
  ident : String
  user : Option String
deriving DecidableEq

/-- A wrapped target callable: its `__name__`, its source path already
relativised to `BASE_DIR`, and its behaviour on the call arguments. -/
structure Func (ρ : Type) where
  name : String
  path : String
  run : List Arg → List (String × Arg) → Except Exc ρ

/-- The `{message, context}` dict returned by a ping provider. -/
structure Payload where
  message : String
  context : List (String × String)
deriving DecidableEq

/-- A registered ping provider: called as `provider(self, func, args, kwargs)`;
it may itself raise. -/
structure Provider (ρ : Type) where
  name : String
  run : Func ρ → List Arg → List (String × Arg) → Except Exc Payload

/-- Observable invocation events: a provider ran, or the wrapped target ran. -/
inductive Ev
  | prov (name : String)
  | target
deriving DecidableEq

/-- The provider sweep of `get_ping_decorator` / `_collect_pings`:
`[provider(self, func, args, kwargs) for provider in ping_providers]`.
Providers run in registration order; the first raising provider aborts the
comprehension and its exception propagates.  The first component records
which providers were actually invoked. -/
def runProviders (f : Func ρ) (args : List Arg) (kwargs : List (String × Arg)) :
    List (Provider ρ) → List Ev × Except Exc (List Payload)
  | [] => ([], Except.ok [])
  | p :: ps =>
    match p.run f args kwargs with
    | Except.error e => ([Ev.prov p.name], Except.error e)
    | Except.ok payload =>
      let rest := runProviders f args kwargs ps
      (Ev.prov p.name :: rest.1, rest.2.map (payload :: ·))

/-- One step of Python `dict.update`: overwrite the value of an existing key
in place, otherwise append the new binding. -/
def dictInsert (m : List (String × String)) (kv : String × String) :
    List (String × String) :=
  if m.any (fun q => q.1 == kv.1) then
    m.map (fun q => if q.1 == kv.1 then (q.1, kv.2) else q)
  else m ++ [kv]

/-- Python `m.update(adds)` on insertion-ordered dicts. -/
def dictUpdate (m : List (String × String)) (adds : List (String × String)) :
    List (String × String) :=
  adds.foldl dictInsert m

/-- The merge loop of `get_ping_decorator`:
`merged_ctx = {}` then `merged_ctx.update(p.get("context", {}))` per payload. -/
def mergePayloadCtx (payloads : List Payload) : List (String × String) :=
  payloads.foldl (fun m p => dictUpdate m p.context) []

/-- Dict lookup on the insertion-ordered model. -/
def lookupA (m : List (String × String)) (k : String) : Option String :=
  (m.find? (fun q => q.1 == k)).map (·.2)

/-- The `wrapped` closure produced by `PingManager.get_ping_decorator`:
when `PING` holds it collects every provider's payload, joins the messages
with newlines, folds the contexts into one dict, emits the pair as a single
INFO log call, and then invokes the target; otherwise it just invokes the
target. -/
def pingWrapped (fl : Flags) (providers : List (Provider ρ)) (f : Func ρ)
    (args : List Arg) (kwargs : List (String × Arg)) :
    List Ev × List LogRecord × Except Exc ρ :=
  if fl.PING then
    match runProviders f args kwargs providers with
    | (evs, Except.error e) => (evs, [], Except.error e)
    | (evs, Except.ok payloads) =>
      let combined := String.intercalate "\n" (payloads.map (·.message))
      let logs := add_info_log fl combined (mergePayloadCtx payloads)
      (evs ++ [Ev.target], logs, f.run args kwargs)
  else ([Ev.target], [], f.run args kwargs)

/-- `PingManager._collect_pings`: returns `[]` immediately when `PING` is
off, otherwise runs every registered provider in order.  The method contains
no log call at all; the middle component records that frame fact. -/
def collect (fl : Flags) (providers : List (Provider ρ)) (f : Func ρ)
    (args : List Arg) (kwargs : List (String × Arg)) :
    List Ev × List LogRecord × Except Exc (List Payload) :=
  if !fl.PING then ([], [], Except.ok [])
  else
    let r := runProviders f args kwargs providers
    (r.1, [], r.2)

/-- The `context` dict built by `catch_error` on failure (the `toolbox`
self-reference entry is omitted from the model). -/
structure Ctx (ρ : Type) where
  func : Func ρ
  args : List Arg
  kwargs : List (String × Arg)
  request : Option Arg

/-- Builds the invocation context of a failed call; `request` is
`next((a for a in args if hasattr(a, "user")), None)`. -/
def mkCtx (f : Func ρ) (args : List Arg) (kwargs : List (String × Arg)) :
    Ctx ρ :=
  ⟨f, args, kwargs, args.find? (fun a => a.user.isSome)⟩

/-- A recovery handler from a handler table: called with the exception and
the invocation context, it may emit log records and returns a value or
raises. -/
def HandlerFn (ρ : Type) : Type :=
  Exc → Ctx ρ → List LogRecord × Except Exc ρ

/-- The `err_msg` string of `catch_error`:
`f"TRIGGER: {type(e).__name__}: {e}"`. -/
def triggerMsg (e : Exc) : String :=
  "TRIGGER: " ++ e.ty.pyName ++ ": " ++ e.msg

/-- The single ERROR record `catch_error` emits for a failed call of `f`. -/
def triggerRec (f : Func ρ) (e : Exc) : LogRecord :=
  ⟨Severity.error, triggerMsg e, [("func_name", f.name), ("func_path", f.path)]⟩

/-- The handler lookup of `catch_error` (lines 49-56 of toolbox/basic.py):
first table entry matching by `isinstance` wins; failing that, a handler
keyed literally by `Exception` is used; failing that, the exception is
re-raised unchanged. -/
def dispatchHandlers (handlers : List (ExcType × HandlerFn ρ)) (e : Exc)
    (ctx : Ctx ρ) : List LogRecord × Except Exc ρ :=
  match handlers.find? (fun p => isinstance e p.1) with
  | some p => p.2 e ctx
  | none =>
    match handlers.find? (fun p => p.1 == ExcType.exception) with
    | some p => p.2 e ctx
    | none => ([], Except.error e)

/-- The `wrapper` closure of `ToolBox.catch_error`: runs the ping-decorated
target; on success it passes the result through; on any exception it builds
the invocation context, emits the single TRIGGER error log, and dispatches
the exception through the handler table. -/
def catch_error (fl : Flags) (providers : List (Provider ρ))
    (handlers : List (ExcType × HandlerFn ρ)) (f : Func ρ)
    (args : List Arg) (kwargs : List (String × Arg)) :
    List Ev × List LogRecord × Except Exc ρ :=
  match pingWrapped fl providers f args kwargs with
  | (evs, plogs, Except.ok v) => (evs, plogs, Except.ok v)
  | (evs, plogs, Except.error e) =>
    let ctx := mkCtx f args kwargs
    let elogs :=
      add_error_log fl (triggerMsg e)
        [("func_name", f.name), ("func_path", f.path)]
    let h := dispatchHandlers handlers e ctx
    (evs, plogs ++ elogs ++ h.1, h.2)

/-- `light_toolbox`: uses the ping decorator only when both `DEBUG` and
`PING` hold, otherwise it is the identity decorator (the bare target). -/
def light_toolbox (fl : Flags) (providers : List (Provider ρ)) (f : Func ρ)
    (args : List Arg) (kwargs : List (String × Arg)) :
    List Ev × List LogRecord × Except Exc ρ :=
  if fl.DEBUG && fl.PING then pingWrapped fl providers f args kwargs
  else ([Ev.target], [], f.run args kwargs)

/-- A fallback callable handed to `reroute_with_retry`.  `run` additionally
receives the 1-based attempt number, standing for the external mutable state
a Python callable may close over (this is what lets a fallback raise on its
first attempts and succeed later). -/
structure Fallback (ρ : Type) where
  name : String
  path : String
  run : List Arg → List (String × Arg) → Nat → Except Exc ρ

/-- The message logged by `_before_sleep` in `reroute_with_retry`:
`f"RETRY {attempt_number}: {func_name}\nTRIGGER: {type(exc).__name__}: {exc}"`. -/
def retryMsg (fb : Fallback ρ) (attempt : Nat) (e : Exc) : String :=
  "RETRY " ++ toString attempt ++ ": " ++ fb.name ++ "\nTRIGGER: "
    ++ e.ty.pyName ++ ": " ++ e.msg

/-- `_before_sleep`: one `add_error_log` call with the retry message and the
fallback's name and relative path. -/
def beforeSleepLog (fl : Flags) (fb : Fallback ρ) (attempt : Nat) (e : Exc) :
    List LogRecord :=
  add_error_log fl (retryMsg fb attempt e)
    [("func_name", fb.name), ("func_path", fb.path)]

/-- The tenacity retry loop around `_call_with_retry`, with
`stop=stop_after_attempt(retries)`, `before_sleep=_before_sleep` and
`reraise=True`.  Returns the emitted retry logs, the number of attempts
actually made, and the final outcome.  The fuel argument only bounds the
recursion; `_call_with_retry` supplies enough fuel that the fuel-exhausted
branch coincides with the stop branch it duplicates. -/
def tenacityRun (fl : Flags) (fb : Fallback ρ) (retries : Int)
    (args : List Arg) (kwargs : List (String × Arg)) :
    Nat → Nat → List LogRecord × Nat × Except Exc ρ
  | attempt, 0 =>
    match fb.run args kwargs attempt with
    | Except.ok v => ([], 1, Except.ok v)
    | Except.error e => ([], 1, Except.error e)
  | attempt, fuel + 1 =>
    match fb.run args kwargs attempt with
    | Except.ok v => ([], 1, Except.ok v)
    | Except.error e =>
      if retries ≤ (attempt : Int) then ([], 1, Except.error e)
      else
        let slog := beforeSleepLog fl fb attempt e
        let rest := tenacityRun fl fb retries args kwargs (attempt + 1) fuel
        (slog ++ rest.1, rest.2.1 + 1, rest.2.2)

/-- `_call_with_retry(*args, **kwargs)`: the tenacity-wrapped fallback call,
starting at attempt 1. -/
def callWithRetry (fl : Flags) (fb : Fallback ρ) (retries : Int)
    (args : List Arg) (kwargs : List (String × Arg)) :
    List LogRecord × Nat × Except Exc ρ :=
  tenacityRun fl fb retries args kwargs 1 retries.toNat

/-- The `handler(error, context)` built by `reroute_with_retry`: it calls the
tenacity-wrapped fallback with the original call's `context["args"]` and
`context["kwargs"]`.  With `reraise=True` tenacity re-raises the underlying
exception itself, so the `except RetryError` branch of the source is
unreachable and the outcome passes through unchanged.  The source performs
no validation of `retries` or `delay`; `delay` has no observable effect. -/
def reroute_with_retry (fl : Flags) (fb : Fallback ρ) (retries : Int)
    (delay : Int) : Exc → Ctx ρ → List LogRecord × Nat × Except Exc ρ :=
  fun _error ctx => callWithRetry fl fb retries ctx.args ctx.kwargs

/-- Adapter from the retry handler to the handler-table shape (dropping the
model-only attempt counter). -/
def rerouteHandlerFn (fl : Flags) (fb : Fallback ρ) (retries : Int)
    (delay : Int) : HandlerFn ρ :=
  fun e ctx =>
    let r := reroute_with_retry fl fb retries delay e ctx
    (r.1, r.2.2)

/-! The decorator composer of src/aop_error_handler/toolbox/basic.py.
Its hooks are modelled as named event emitters; a post hook's event carries
the result value it was handed.  The module is defective in three distinct
ways, each modelled below: the class statement names an undefined base
(`aopModuleImport`), decoration under both flags calls an undefined method
(`toolboxCall`), and every call of a composed callable ends in a call to an
undefined method (`finalWrapper`). -/

/-- Line 10 of src/src/aop_error_handler/toolbox/basic.py reads
`class ToolBox(PingManager, ErrorManager)`.  `ErrorManager` is neither
defined nor imported anywhere in the repository, so executing the class
statement — i.e. importing the module — raises `NameError` before the class
(and hence any composer instance) can exist. -/
def aopModuleImport : Except Exc Unit :=
  Except.error ⟨ExcType.nameError, "name 'ErrorManager' is not defined"⟩

/-- Hook events of the aop composer. -/
inductive AEv (ρ : Type)
  | pre (name : String)
  | targetRun
  | post (name : String) (result : ρ)
deriving DecidableEq

/-- One `(pre_logic, post_logic)` pair handed to
`ToolBox._create_feature_decorator`; each component is optional. -/
structure Feature where
  preName : Option String
  postName : Option String

/-- A wrapped callable of the aop composer, returning its hook-event trace. -/
def FeatureWrapped (α ρ : Type) : Type :=
  α → List (AEv ρ) × ρ

/-- The `wrapper` built by `_create_feature_decorator`: run `pre_logic` if
present, run the inner callable once, run `post_logic` on the result if
present, and return the result. -/
def createFeatureDecorator (ft : Feature) (g : FeatureWrapped α ρ) :
    FeatureWrapped α ρ :=
  fun a =>
    let preEvs : List (AEv ρ) :=
      match ft.preName with
      | some s => [AEv.pre s]
      | none => []
    let r := g a
    let postEvs : List (AEv ρ) :=
      match ft.postName with
      | some s => [AEv.post s r.2]
      | none => []
    (preEvs ++ r.1 ++ postEvs, r.2)

/-- The decorator fold of `ToolBox.__call__` (lines 96-97):
`for decorator in reversed(self.decorators): func = decorator(func)`, where
`self.decorators` holds the features in registration order.  This is the
body of a method of a class that never comes into existence (see
`aopModuleImport`); it is reachable, hypothetically, only through
`toolboxCall`. -/
def toolboxCompose (features : List Feature) (t : α → ρ) :
    FeatureWrapped α ρ :=
  features.reverse.foldl (fun g ft => createFeatureDecorator ft g)
    (fun a => ([AEv.targetRun], t a))

/-- `final_wrapper` (lines 99-102): runs the composed callable, then calls
`self.log_manager.display_logs()`.  `LogManager` defines no `display_logs`
method, so that call raises `AttributeError` after all hooks have run; the
hook-event trace is nevertheless fully produced, but the caller never
receives the result. -/
def finalWrapper (features : List Feature) (t : α → ρ) (a : α) :
    List (AEv ρ) × Except Exc ρ :=
  let r := toolboxCompose features t a
  (r.1, Except.error ⟨ExcType.attributeError,
    "'LogManager' object has no attribute 'display_logs'"⟩)

/-- `ToolBox.__call__` in full (lines 91-104): under `DEBUG` and `PING` it
first executes `self.state["func_ping"] = self.get_ping(func)` (lines
92-94); no `get_ping` method exists on `ToolBox`, on `PingManager`, or
anywhere in the repository, so decoration itself raises `AttributeError`
and no composed callable is produced.  In every other flag configuration
the decorator fold runs and `final_wrapper` is returned. -/
def toolboxCall {α ρ : Type} (fl : Flags) (features : List Feature)
    (t : α → ρ) : Except Exc (α → List (AEv ρ) × Except Exc ρ) :=
  if fl.DEBUG && fl.PING then
    Except.error ⟨ExcType.attributeError,
      "'ToolBox' object has no attribute 'get_ping'"⟩
  else Except.ok (finalWrapper features t)

/-! Concrete fixtures used by the witness and counterexample theorems. -/

def excValX : Exc := ⟨ExcType.valueError, "x"⟩

def excKeyMissing : Exc := ⟨ExcType.keyError, "missing"⟩

def excProvBoom : Exc := ⟨ExcType.typeError, "boom"⟩

def fOk : Func Nat := ⟨"target_fn", "app/views.py", fun _ _ => Except.ok 7⟩

def fRaisesKey : Func Nat :=
  ⟨"target_fn", "app/views.py", fun _ _ => Except.error excKeyMissing⟩

def fRaisesVal : Func Nat :=
  ⟨"target_fn", "app/views.py", fun _ _ => Except.error excValX⟩

def provA : Provider Nat :=
  ⟨"provA", fun _ _ _ => Except.ok ⟨"msgA", [("k", "a"), ("shared", "a")]⟩⟩

def provB : Provider Nat :=
  ⟨"provB", fun _ _ _ => Except.ok ⟨"msgB", [("shared", "b")]⟩⟩

def provRaise : Provider Nat :=
  ⟨"prov_raise", fun _ _ _ => Except.error excProvBoom⟩

def hVal : HandlerFn Nat := fun _ _ => ([], Except.ok 22)

def hLookup : HandlerFn Nat := fun _ _ => ([], Except.ok 11)

def hKey : HandlerFn Nat := fun _ _ => ([], Except.ok 33)

def handlersVLK : List (ExcType × HandlerFn Nat) :=
  [(ExcType.valueError, hVal), (ExcType.lookupError, hLookup),
   (ExcType.keyError, hKey)]

def fbAlways : Fallback Nat :=
  ⟨"fb_fn", "app/fb.py", fun _ _ _ => Except.error excValX⟩

def fbThird : Fallback Nat :=
  ⟨"fb_fn", "app/fb.py",
   fun _ _ n => if n < 3 then Except.error excValX else Except.ok 42⟩

def ctx0 : Ctx Nat := ⟨fRaisesVal, [], [], none⟩

/-! General-purpose lemmas about the embedding. -/

theorem list_find?_first {β : Type _} (l : List β) (p : β → Bool) (i : Nat)
    (hi : i < l.length) (hpi : p (l.get ⟨i, hi⟩) = true)
    (hmin : ∀ j (hj : j < i), p (l.get ⟨j, Nat.lt_trans hj hi⟩) = false) :
    l.find? p = some (l.get ⟨i, hi⟩) := by
  induction l generalizing i with
  | nil => simp at hi
  | cons x xs ih =>
    cases i with
    | zero =>
      have hx : p x = true := hpi
      simp [List.find?_cons, hx]
    | succ i' =>
      have h0 : p x = false := hmin 0 (Nat.succ_pos i')
      have hi' : i' < xs.length := Nat.lt_of_succ_lt_succ hi
      have hpi' : p (xs.get ⟨i', hi'⟩) = true := hpi
      have hmin' : ∀ j (hj : j < i'),
          p (xs.get ⟨j, Nat.lt_trans hj hi'⟩) = false := by
        intro j hj
        exact hmin (j + 1) (Nat.succ_lt_succ hj)
      have := ih i' hi' hpi' hmin'
      simp [List.find?_cons, h0, this]

theorem isinstance_exception (e : Exc) :
    isinstance e ExcType.exception = true := by
  rcases e with ⟨t, m⟩
  cases t <;> rfl

theorem dispatchHandlers_first_match {ρ : Type}
    (handlers : List (ExcType × HandlerFn ρ)) (e : Exc) (ctx : Ctx ρ)
    (i : Nat) (hi : i < handlers.length)
    (hpi : isinstance e (handlers.get ⟨i, hi⟩).1 = true)
    (hmin : ∀ j (hj : j < i),
      isinstance e (handlers.get ⟨j, Nat.lt_trans hj hi⟩).1 = false) :
    dispatchHandlers handlers e ctx = (handlers.get ⟨i, hi⟩).2 e ctx := by
  have hf := list_find?_first handlers (fun p => isinstance e p.1) i hi hpi hmin
  simp [dispatchHandlers, hf]

theorem dispatchHandlers_no_match {ρ : Type}
    (handlers : List (ExcType × HandlerFn ρ)) (e : Exc) (ctx : Ctx ρ)
    (h : ∀ p ∈ handlers, isinstance e p.1 = false) :
    dispatchHandlers handlers e ctx = ([], Except.error e) := by
  have h1 : handlers.find? (fun p => isinstance e p.1) = none := by
    apply List.find?_eq_none.mpr
    intro p hp
    simp [h p hp]
  have h2 : handlers.find? (fun p => p.1 == ExcType.exception) = none := by
    apply List.find?_eq_none.mpr
    intro p hp hcontra
    have hroot : p.1 = ExcType.exception := by simpa using hcontra
    have hfalse := h p hp
    rw [hroot, isinstance_exception] at hfalse
    exact Bool.noConfusion hfalse
  simp [dispatchHandlers, h1, h2]

theorem pingWrapped_run_nil {ρ : Type} (fl : Flags) (f : Func ρ)
    (args : List Arg) (kwargs : List (String × Arg)) :
    (pingWrapped fl ([] : List (Provider ρ)) f args kwargs).2.2 =
      f.run args kwargs := by
  by_cases hp : fl.PING = true <;>
    simp [pingWrapped, runProviders, hp]

theorem catch_error_result_failed {ρ : Type} (fl : Flags)
    (providers : List (Provider ρ)) (handlers : List (ExcType × HandlerFn ρ))
    (f : Func ρ) (args : List Arg) (kwargs : List (String × Arg)) (E : Exc)
    (hfail : (pingWrapped fl providers f args kwargs).2.2 = Except.error E) :
    (catch_error fl providers handlers f args kwargs).2.2 =
      (dispatchHandlers handlers E (mkCtx f args kwargs)).2 := by
  rcases hpw : pingWrapped fl providers f args kwargs with ⟨evs, plogs, res⟩
  rw [hpw] at hfail
  simp only at hfail
  subst hfail
  simp [catch_error, hpw]

/-! Claim theorems. -/

/-- C1: for a handler table and an exception thrown by the wrapped target,
`catch_error` returns the result of the first table entry whose exception
type matches by instance check (subtypes included); with no matching entry
but a root-keyed entry, the catch-all would be invoked (a situation that in
fact cannot arise, since every exception matches the root type by instance
check); with neither, the exception is re-raised with its type and message
unchanged. -/
theorem catch_error_dispatch_policy {ρ : Type} (fl : Flags)
    (handlers : List (ExcType × HandlerFn ρ)) (f : Func ρ)
    (args : List Arg) (kwargs : List (String × Arg)) (E : Exc)
    (hrun : f.run args kwargs = Except.error E) :
    (∀ i (hi : i < handlers.length),
      isinstance E (handlers.get ⟨i, hi⟩).1 = true →
      (∀ j (hj : j < i),
        isinstance E (handlers.get ⟨j, Nat.lt_trans hj hi⟩).1 = false) →
      (catch_error fl [] handlers f args kwargs).2.2 =
        ((handlers.get ⟨i, hi⟩).2 E (mkCtx f args kwargs)).2)
    ∧ ((∀ p ∈ handlers, isinstance E p.1 = false) →
      (catch_error fl [] handlers f args kwargs).2.2 = Except.error E)
    ∧ ((∀ p ∈ handlers, isinstance E p.1 = false) →
      ∀ h : HandlerFn ρ, (ExcType.exception, h) ∈ handlers →
        (catch_error fl [] handlers f args kwargs).2.2 =
          (h E (mkCtx f args kwargs)).2)
    ∧ ((∀ p ∈ handlers, isinstance E p.1 = false) →
      ∀ h : HandlerFn ρ, (ExcType.exception, h) ∉ handlers) := by
  have hfail : (pingWrapped fl ([] : List (Provider ρ)) f args kwargs).2.2 =
      Except.error E := by
    rw [pingWrapped_run_nil, hrun]
  have hres := catch_error_result_failed fl [] handlers f args kwargs E hfail
  refine ⟨?_, ?_, ?_, ?_⟩
  · intro i hi hpi hmin
    rw [hres, dispatchHandlers_first_match handlers E _ i hi hpi hmin]
  · intro hnone
    rw [hres, dispatchHandlers_no_match handlers E _ hnone]
  · intro hnone h hmem
    have hfalse := hnone _ hmem
    rw [isinstance_exception] at hfalse
    exact Bool.noConfusion hfalse
  · intro hnone h hmem
    have hfalse := hnone _ hmem
    rw [isinstance_exception] at hfalse
    exact Bool.noConfusion hfalse

/-- Witness for C1: a `KeyError` is dispatched to the `LookupError` entry
(the second of three entries, matched via the subtype relation). -/
theorem catch_error_dispatch_policy_witness :
    fRaisesKey.run [] [] = Except.error excKeyMissing
    ∧ isinstance excKeyMissing ExcType.lookupError = true
    ∧ (catch_error ⟨true, false⟩ [] handlersVLK fRaisesKey [] []).2.2 =
        (hLookup excKeyMissing (mkCtx fRaisesKey [] [])).2 := by
  refine ⟨rfl, rfl, ?_⟩
  have h := (catch_error_dispatch_policy ⟨true, false⟩ handlersVLK fRaisesKey
    [] [] excKeyMissing rfl).1 1 (by simp [handlersVLK]) rfl ?_
  · exact h
  · intro j hj
    have hj0 : j = 0 := by omega
    subst hj0
    rfl

/-- C7: with ping collection disabled, `_collect_pings` returns an empty
sequence, invokes no provider, and emits no log record, for any registered
provider set. -/
theorem collect_disabled {ρ : Type} (fl : Flags)
    (providers : List (Provider ρ)) (f : Func ρ) (args : List Arg)
    (kwargs : List (String × Arg)) (hping : fl.PING = false) :
    collect fl providers f args kwargs = ([], [], Except.ok []) := by
  simp [collect, hping]

/-- Witness for C7 at a nonempty provider registry (one provider would even
raise if it were invoked). -/
theorem collect_disabled_witness :
    (Flags.mk true false).PING = false
    ∧ collect ⟨true, false⟩ [provA, provRaise] fOk [] [] =
        ([], [], Except.ok []) :=
  ⟨rfl, collect_disabled ⟨true, false⟩ [provA, provRaise] fOk [] [] rfl⟩

theorem tenacityRun_allFail {ρ : Type} (fl : Flags) (fb : Fallback ρ)
    (retries : Int) (args : List Arg) (kwargs : List (String × Arg))
    (es : Nat → Exc)
    (hfail : ∀ n, fb.run args kwargs n = Except.error (es n)) :
    ∀ (fuel attempt : Nat), 1 ≤ attempt → (attempt : Int) ≤ retries →
      retries ≤ (attempt : Int) + (fuel : Int) →
      (tenacityRun fl fb retries args kwargs attempt fuel).2.1 =
          retries.toNat - attempt + 1
      ∧ (tenacityRun fl fb retries args kwargs attempt fuel).2.2 =
          Except.error (es retries.toNat) := by
  intro fuel
  induction fuel with
  | zero =>
    intro attempt h1 h2 h3
    have hEq : retries.toNat = attempt := by omega
    rw [tenacityRun, hfail attempt, hEq]
    constructor
    · simp
    · simp
  | succ fuel' ih =>
    intro attempt h1 h2 h3
    by_cases hstop : retries ≤ (attempt : Int)
    · have hEq : retries.toNat = attempt := by omega
      rw [tenacityRun, hfail attempt]
      simp only [hstop, if_true, hEq]
      constructor
      · simp
      · simp
    · have h2' : ((attempt + 1 : Nat) : Int) ≤ retries := by
        push_cast
        omega
      have h3' : retries ≤ ((attempt + 1 : Nat) : Int) + (fuel' : Int) := by
        push_cast
        push_cast at h3
        omega
      have hrec := ih (attempt + 1) (by omega) h2' h3'
      rw [tenacityRun, hfail attempt]
      simp only [hstop, if_false]
      constructor
      · simp only [hrec.1]
        omega
      · simp only [hrec.2]

theorem tenacityRun_succeedsAt {ρ : Type} (fl : Flags) (fb : Fallback ρ)
    (retries : Int) (args : List Arg) (kwargs : List (String × Arg))
    (es : Nat → Exc) (k : Nat) (v : ρ)
    (hdbg : fl.DEBUG = true)
    (hfailB : ∀ n, 1 ≤ n → n < k → fb.run args kwargs n = Except.error (es n))
    (hsucc : fb.run args kwargs k = Except.ok v)
    (hkr : (k : Int) ≤ retries) :
    ∀ (fuel attempt : Nat), 1 ≤ attempt → attempt ≤ k →
      (k : Int) ≤ (attempt : Int) + (fuel : Int) →
      tenacityRun fl fb retries args kwargs attempt fuel =
        ((List.range' attempt (k - attempt)).map
            (fun n => LogRecord.mk Severity.error (retryMsg fb n (es n))
              [("func_name", fb.name), ("func_path", fb.path)]),
         k - attempt + 1, Except.ok v) := by
  intro fuel
  induction fuel with
  | zero =>
    intro attempt h1 h2 h3
    have hEq : attempt = k := by omega
    subst hEq
    rw [tenacityRun, hsucc]
    simp
  | succ fuel' ih =>
    intro attempt h1 h2 h3
    by_cases hk : attempt = k
    · subst hk
      rw [tenacityRun, hsucc]
      simp
    · have hlt : attempt < k := lt_of_le_of_ne h2 hk
      have hstop : ¬ retries ≤ (attempt : Int) := by omega
      have hrec := ih (attempt + 1) (by omega) (by omega)
        (by push_cast; push_cast at h3; omega)
      rw [tenacityRun, hfailB attempt h1 hlt]
      simp only [hstop, if_false, hrec]
      have hdecomp : k - attempt = (k - (attempt + 1)) + 1 := by omega
      rw [hdecomp]
      have hrange : List.range' attempt ((k - (attempt + 1)) + 1) =
          attempt :: List.range' (attempt + 1) (k - (attempt + 1)) := rfl
      rw [hrange]
      simp only [List.map_cons, beforeSleepLog, add_error_log, hdbg,
        if_true]
      rfl

theorem find?_append_cases {β : Type _} (l₁ l₂ : List β) (p : β → Bool) :
    (l₁ ++ l₂).find? p =
      match l₁.find? p with
      | some x => some x
      | none => l₂.find? p := by
  induction l₁ with
  | nil => simp
  | cons x xs ih =>
    by_cases hx : p x = true
    · simp [List.find?_cons, hx]
    · simp only [List.cons_append, List.find?_cons, hx]
      simp only [Bool.false_eq_true, if_false] at *
      exact ih

theorem lookupA_dictInsert (m : List (String × String))
    (kv : String × String) (k : String) :
    lookupA (dictInsert m kv) k =
      if k == kv.1 then some kv.2 else lookupA m k := by
  by_cases hany : m.any (fun q => q.1 == kv.1) = true
  · have hins : dictInsert m kv =
        m.map (fun q => if q.1 == kv.1 then (q.1, kv.2) else q) := by
      simp [dictInsert, hany]
    rw [hins, lookupA, List.find?_map]
    have hpred : ((fun q : String × String => q.1 == k) ∘
        (fun q => if q.1 == kv.1 then (q.1, kv.2) else q)) =
        fun q : String × String => q.1 == k := by
      funext q
      by_cases hq : q.1 = kv.1 <;> simp [hq]
    rw [hpred]
    by_cases hk : (k == kv.1) = true
    · have hkeq : k = kv.1 := by simpa using hk
      rcases List.any_eq_true.mp hany with ⟨q0, hq0mem, hq0⟩
      have hsome : (m.find? fun q : String × String => q.1 == k).isSome := by
        apply List.find?_isSome.mpr
        exact ⟨q0, hq0mem, by simpa [hkeq] using hq0⟩
      rcases Option.isSome_iff_exists.mp hsome with ⟨q1, hq1⟩
      have hq1k := List.find?_some hq1
      have hq1kv : (q1.1 == kv.1) = true := by
        rw [show kv.1 = k from hkeq.symm]
        exact hq1k
      have hq1kveq : q1.1 = kv.1 := by simpa using hq1kv
      rw [hq1]
      simp [hk, hq1kveq]
    · have hkne : ¬ k = kv.1 := by simpa using hk
      simp only [hk, if_false]
      rw [lookupA]
      cases hfq : m.find? fun q : String × String => q.1 == k with
      | none => simp
      | some q1 =>
        have hq1k := List.find?_some hfq
        have hq1ne : ¬ q1.1 = kv.1 := by
          have hq1eq : q1.1 = k := by simpa using hq1k
          simp [hq1eq, hkne]
        simp [hq1ne]
  · have hins : dictInsert m kv = m ++ [kv] := by
      simp [dictInsert, hany]
    rw [hins, lookupA, find?_append_cases]
    by_cases hk : (k == kv.1) = true
    · have hkeq : k = kv.1 := by simpa using hk
      have hnone : (m.find? fun q : String × String => q.1 == k) = none := by
        apply List.find?_eq_none.mpr
        intro q hq hcontra
        apply hany
        apply List.any_eq_true.mpr
        exact ⟨q, hq, by simpa [hkeq] using hcontra⟩
      have hkv : (kv.1 == k) = true := by simp [hkeq]
      rw [hnone]
      simp [List.find?_cons, hkv, hk]
    · have hkne : ¬ k = kv.1 := by simpa using hk
      have hkv : (kv.1 == k) = false := by
        simp only [beq_eq_false_iff_ne, ne_eq]
        exact fun h => hkne h.symm
      rw [lookupA]
      cases hfq : m.find? fun q : String × String => q.1 == k with
      | none => simp [List.find?_cons, hkv, hk]
      | some q1 => simp [hk]

theorem lookupA_dictUpdate (adds : List (String × String))
    (m : List (String × String)) (k : String) :
    lookupA (dictUpdate m adds) k =
      match adds.reverse.find? (fun q => q.1 == k) with
      | some q => some q.2
      | none => lookupA m k := by
  induction adds generalizing m with
  | nil => simp [dictUpdate]
  | cons q qs ih =>
    have hstep : dictUpdate m (q :: qs) = dictUpdate (dictInsert m q) qs := rfl
    rw [hstep, ih, List.reverse_cons, find?_append_cases]
    cases hq : qs.reverse.find? (fun r => r.1 == k) with
    | some r => simp
    | none =>
      simp only []
      rw [lookupA_dictInsert]
      by_cases hk : k == q.1
      · have hkeq : k = q.1 := by simpa using hk
        simp [List.find?_cons, hk, hkeq]
      · have hkne : ¬ k = q.1 := by simpa using hk
        have hq1 : (q.1 == k) = false := by
          simp
          intro h
          exact absurd h.symm hkne
        simp [List.find?_cons, hk, hq1]

theorem mergePayloadCtx_eq_join (payloads : List Payload) :
    ∀ m, payloads.foldl (fun m p => dictUpdate m p.context) m =
      dictUpdate m (payloads.map (·.context)).flatten := by
  induction payloads with
  | nil => intro m; simp [dictUpdate]
  | cons p ps ih =>
    intro m
    simp only [List.foldl_cons, List.map_cons, List.flatten_cons]
    rw [ih]
    simp [dictUpdate, List.foldl_append]

/-- C6: with diagnostics and ping collection enabled and every provider
succeeding, the ping layer emits exactly one INFO record per invocation
(never one per provider), whose message is the newline-join of all provider
messages in registration order and whose context is the fold of all provider
contexts; for every key, the merged value is the one bound by the latest
context pair across providers, i.e. later providers override earlier ones. -/
theorem ping_merge_single_info {ρ : Type} (fl : Flags)
    (providers : List (Provider ρ)) (f : Func ρ) (args : List Arg)
    (kwargs : List (String × Arg)) (payloads : List Payload)
    (hdbg : fl.DEBUG = true) (hping : fl.PING = true)
    (hok : (runProviders f args kwargs providers).2 = Except.ok payloads) :
    (pingWrapped fl providers f args kwargs).2.1 =
      [⟨Severity.info, String.intercalate "\n" (payloads.map (·.message)),
        mergePayloadCtx payloads⟩]
    ∧ ∀ k, lookupA (mergePayloadCtx payloads) k =
        ((payloads.map (·.context)).flatten.reverse.find?
          (fun q => q.1 == k)).map (·.2) := by
  constructor
  · rcases hrp : runProviders f args kwargs providers with ⟨evs, res⟩
    rw [hrp] at hok
    simp only at hok
    subst hok
    simp [pingWrapped, hping, hrp, add_info_log, hdbg, mergePayloadCtx]
  · intro k
    rw [mergePayloadCtx, mergePayloadCtx_eq_join, lookupA_dictUpdate]
    cases hfind : (payloads.map (·.context)).flatten.reverse.find?
        (fun q => q.1 == k) with
    | some q => simp
    | none => simp [lookupA]

/-- Witness for C6: two providers, the second overriding the first on the
key "shared"; one INFO record is emitted carrying the joined message and the
merged context. -/
theorem ping_merge_single_info_witness :
    (runProviders fOk [] [] [provA, provB]).2 =
        Except.ok [⟨"msgA", [("k", "a"), ("shared", "a")]⟩,
                   ⟨"msgB", [("shared", "b")]⟩]
    ∧ (pingWrapped ⟨true, true⟩ [provA, provB] fOk [] []).2.1 =
        [⟨Severity.info,
          String.intercalate "\n"
            (([⟨"msgA", [("k", "a"), ("shared", "a")]⟩,
               ⟨"msgB", [("shared", "b")]⟩] : List Payload).map (·.message)),
          mergePayloadCtx
            [⟨"msgA", [("k", "a"), ("shared", "a")]⟩,
             ⟨"msgB", [("shared", "b")]⟩]⟩]
    ∧ lookupA (mergePayloadCtx
          [⟨"msgA", [("k", "a"), ("shared", "a")]⟩,
           ⟨"msgB", [("shared", "b")]⟩]) "shared" =
        ((([⟨"msgA", [("k", "a"), ("shared", "a")]⟩,
            ⟨"msgB", [("shared", "b")]⟩] : List Payload).map
              (·.context)).flatten.reverse.find?
          (fun q => q.1 == "shared")).map (·.2)
    ∧ lookupA (mergePayloadCtx
          [⟨"msgA", [("k", "a"), ("shared", "a")]⟩,
           ⟨"msgB", [("shared", "b")]⟩]) "shared" = some "b" := by
  refine ⟨rfl, ?_, ?_, by rfl⟩
  · exact (ping_merge_single_info ⟨true, true⟩ [provA, provB] fOk [] []
      [⟨"msgA", [("k", "a"), ("shared", "a")]⟩,
       ⟨"msgB", [("shared", "b")]⟩] rfl rfl rfl).1
  · exact (ping_merge_single_info ⟨true, true⟩ [provA, provB] fOk [] []
      [⟨"msgA", [("k", "a"), ("shared", "a")]⟩,
       ⟨"msgB", [("shared", "b")]⟩] rfl rfl rfl).2 "shared"

/-- C2 counterexample: building the retry handler with `retries = 0` raises
no configuration error; the built handler still attempts the
always-failing fallback exactly once and re-raises that attempt's
`ValueError("x")` — so the fail-fast validation the claim describes does not
exist in the code. -/
theorem reroute_zero_retries_attempts_once :
    (reroute_with_retry ⟨true, true⟩ fbAlways 0 0 excValX ctx0).2.1 = 1
    ∧ (reroute_with_retry ⟨true, true⟩ fbAlways 0 0 excValX ctx0).2.2 =
        Except.error excValX := ⟨rfl, rfl⟩

/-- C2 (amended): the builder performs no validation of `retries`; for any
`retries ≤ 0` the built handler makes exactly one attempt of the fallback
(tenacity always runs the first attempt) and then raises that attempt's
underlying exception unchanged — never zero or infinitely many attempts. -/
theorem reroute_nonpositive_retries {ρ : Type} (fl : Flags)
    (fb : Fallback ρ) (retries : Int) (delay : Int) (err : Exc) (ctx : Ctx ρ)
    (es : Nat → Exc)
    (hfail : ∀ n, fb.run ctx.args ctx.kwargs n = Except.error (es n))
    (hr : retries ≤ 0) :
    (reroute_with_retry fl fb retries delay err ctx).2.1 = 1
    ∧ (reroute_with_retry fl fb retries delay err ctx).2.2 =
        Except.error (es 1) := by
  have hfuel : retries.toNat = 0 := by omega
  rw [reroute_with_retry]
  simp only [callWithRetry, hfuel]
  rw [tenacityRun, hfail 1]
  exact ⟨rfl, rfl⟩

/-- Witness for the amended C2 at `retries = 0` and an always-failing
fallback. -/
theorem reroute_nonpositive_retries_witness :
    (∀ n, fbAlways.run ctx0.args ctx0.kwargs n = Except.error excValX)
    ∧ (0 : Int) ≤ 0
    ∧ (reroute_with_retry ⟨true, true⟩ fbAlways 0 0 excValX ctx0).2.1 = 1
    ∧ (reroute_with_retry ⟨true, true⟩ fbAlways 0 0 excValX ctx0).2.2 =
        Except.error excValX := by
  refine ⟨fun n => rfl, le_refl 0, ?_⟩
  exact reroute_nonpositive_retries ⟨true, true⟩ fbAlways 0 0 excValX ctx0
    (fun _ => excValX) (fun n => rfl) (le_refl 0)

/-- C4: if the fallback raises on every attempt, the handler built with
`retries ≥ 1` makes exactly `retries` attempts and then raises the
underlying exception of the final attempt, with its type and message
preserved (no wrapper type: the outcome is exactly that exception value). -/
theorem reroute_exhaustion_raises_underlying {ρ : Type} (fl : Flags)
    (fb : Fallback ρ) (retries : Int) (delay : Int) (err : Exc) (ctx : Ctx ρ)
    (es : Nat → Exc)
    (hfail : ∀ n, fb.run ctx.args ctx.kwargs n = Except.error (es n))
    (hr : 1 ≤ retries) :
    (reroute_with_retry fl fb retries delay err ctx).2.1 = retries.toNat
    ∧ (reroute_with_retry fl fb retries delay err ctx).2.2 =
        Except.error (es retries.toNat) := by
  have h := tenacityRun_allFail fl fb retries ctx.args ctx.kwargs es hfail
    retries.toNat 1 (le_refl 1) hr (by omega)
  rw [reroute_with_retry]
  simp only [callWithRetry]
  refine ⟨?_, h.2⟩
  rw [h.1]
  omega

/-- Witness for C4: `retries = 2` with a fallback that always raises
`ValueError("x")` makes exactly 2 attempts and raises `ValueError("x")`. -/
theorem reroute_exhaustion_witness :
    (∀ n, fbAlways.run ctx0.args ctx0.kwargs n = Except.error excValX)
    ∧ (1 : Int) ≤ 2
    ∧ (reroute_with_retry ⟨true, true⟩ fbAlways 2 0 excValX ctx0).2.1 = 2
    ∧ (reroute_with_retry ⟨true, true⟩ fbAlways 2 0 excValX ctx0).2.2 =
        Except.error excValX := by
  refine ⟨fun n => rfl, by omega, ?_⟩
  exact reroute_exhaustion_raises_underlying ⟨true, true⟩ fbAlways 2 0
    excValX ctx0 (fun _ => excValX) (fun n => rfl) (by omega)

/-- C5: the retry handler calls the fallback on the original call's
positional and keyword arguments from the invocation context; if the
fallback fails on attempts `1..k-1` and succeeds on attempt `k ≤ retries`,
the handler returns the fallback's result after exactly `k` attempts, and
(with diagnostics enabled) exactly one retry log entry per inter-attempt
wait was emitted — records carrying the attempt number, the fallback's name
and location, and the triggering exception's kind and message. -/
theorem reroute_success_and_retry_logs {ρ : Type} (fl : Flags)
    (fb : Fallback ρ) (retries : Int) (delay : Int) (err : Exc) (ctx : Ctx ρ)
    (es : Nat → Exc) (k : Nat) (v : ρ)
    (hdbg : fl.DEBUG = true)
    (hfailB : ∀ n, 1 ≤ n → n < k →
      fb.run ctx.args ctx.kwargs n = Except.error (es n))
    (hsucc : fb.run ctx.args ctx.kwargs k = Except.ok v)
    (hk : 1 ≤ k) (hkr : (k : Int) ≤ retries) :
    reroute_with_retry fl fb retries delay err ctx =
      ((List.range' 1 (k - 1)).map
          (fun n => LogRecord.mk Severity.error (retryMsg fb n (es n))
            [("func_name", fb.name), ("func_path", fb.path)]),
       k, Except.ok v) := by
  have h := tenacityRun_succeedsAt fl fb retries ctx.args ctx.kwargs es k v
    hdbg hfailB hsucc hkr retries.toNat 1 (le_refl 1) (by omega) (by omega)
  rw [reroute_with_retry]
  simp only [callWithRetry]
  rw [h]
  have hcount : k - 1 + 1 = k := by omega
  rw [hcount]

/-- Witness for C5: `retries = 3` with a fallback failing on attempts 1 and 2
and returning 42 on attempt 3: the handler returns 42 after 3 attempts with
exactly the 2 retry records for attempts 1 and 2. -/
theorem reroute_success_witness :
    fbThird.run ctx0.args ctx0.kwargs 3 = Except.ok 42
    ∧ (3 : Int) ≤ 3
    ∧ reroute_with_retry ⟨true, true⟩ fbThird 3 0 excValX ctx0 =
        ((List.range' 1 2).map
            (fun n => LogRecord.mk Severity.error (retryMsg fbThird n excValX)
              [("func_name", fbThird.name), ("func_path", fbThird.path)]),
         3, Except.ok 42)
    ∧ ((List.range' 1 2).map
          (fun n => LogRecord.mk Severity.error (retryMsg fbThird n excValX)
            [("func_name", fbThird.name), ("func_path", fbThird.path)])).length
        = 2 := by
  refine ⟨rfl, by omega, ?_, by simp⟩
  exact reroute_success_and_retry_logs ⟨true, true⟩ fbThird 3 0 excValX ctx0
    (fun _ => excValX) 3 42 rfl
    (fun n h1 h2 => by
      show (if n < 3 then Except.error excValX else Except.ok 42) =
        Except.error excValX
      simp [h2])
    rfl (by omega) (by omega)

theorem pingWrapped_logs_info {ρ : Type} (fl : Flags)
    (providers : List (Provider ρ)) (f : Func ρ) (args : List Arg)
    (kwargs : List (String × Arg)) :
    ∀ r ∈ (pingWrapped fl providers f args kwargs).2.1,
      r.sev = Severity.info := by
  intro r hr
  by_cases hp : fl.PING = true
  · rcases hrp : runProviders f args kwargs providers with ⟨evs, res⟩
    cases res with
    | error e =>
      simp [pingWrapped, hp, hrp] at hr
    | ok payloads =>
      simp [pingWrapped, hp, hrp, add_info_log] at hr
      rw [hr.2]
  · simp [pingWrapped, hp] at hr

theorem pingWrapped_logs_nil {ρ : Type} (fl : Flags)
    (providers : List (Provider ρ)) (f : Func ρ) (args : List Arg)
    (kwargs : List (String × Arg)) (hdbg : fl.DEBUG = false) :
    (pingWrapped fl providers f args kwargs).2.1 = [] := by
  by_cases hp : fl.PING = true
  · rcases hrp : runProviders f args kwargs providers with ⟨evs, res⟩
    cases res with
    | error e => simp [pingWrapped, hp, hrp]
    | ok payloads => simp [pingWrapped, hp, hrp, add_info_log, hdbg]
  · simp [pingWrapped, hp]

theorem count_eq_zero_of_all_info (rec : LogRecord)
    (hrec : rec.sev = Severity.error) (logs : List LogRecord)
    (hall : ∀ r ∈ logs, r.sev = Severity.info) : logs.count rec = 0 := by
  apply List.count_eq_zero.mpr
  intro hmem
  have hinfo := hall rec hmem
  rw [hrec] at hinfo
  exact Severity.noConfusion hinfo

theorem dispatchHandlers_logs_cases {ρ : Type}
    (handlers : List (ExcType × HandlerFn ρ)) (e : Exc) (ctx : Ctx ρ) :
    (dispatchHandlers handlers e ctx).1 = []
    ∨ ∃ p ∈ handlers, dispatchHandlers handlers e ctx = p.2 e ctx := by
  cases h1 : handlers.find? (fun p => isinstance e p.1) with
  | some p =>
    exact Or.inr ⟨p, List.mem_of_find?_eq_some h1,
      by simp [dispatchHandlers, h1]⟩
  | none =>
    cases h2 : handlers.find? (fun p => p.1 == ExcType.exception) with
    | some p =>
      exact Or.inr ⟨p, List.mem_of_find?_eq_some h2,
        by simp [dispatchHandlers, h1, h2]⟩
    | none =>
      exact Or.inl (by simp [dispatchHandlers, h1, h2])

/-- C3: every failed call through `catch_error` puts exactly one ERROR
record with detail "TRIGGER: kind: message", the target's name and its
relative location into the emitted trace, whatever the handlers then do
(recover, fail themselves, or leave the exception to be re-raised) —
provided the handlers do not themselves forge that same record. -/
theorem catch_error_single_error_record {ρ : Type} (fl : Flags)
    (providers : List (Provider ρ)) (handlers : List (ExcType × HandlerFn ρ))
    (f : Func ρ) (args : List Arg) (kwargs : List (String × Arg)) (E : Exc)
    (hdbg : fl.DEBUG = true)
    (hfail : (pingWrapped fl providers f args kwargs).2.2 = Except.error E)
    (hh : ∀ p ∈ handlers, triggerRec f E ∉ (p.2 E (mkCtx f args kwargs)).1) :
    ((catch_error fl providers handlers f args kwargs).2.1).count
      (triggerRec f E) = 1 := by
  rcases hpw : pingWrapped fl providers f args kwargs with ⟨evs, plogs, res⟩
  rw [hpw] at hfail
  simp only at hfail
  subst hfail
  have htrace : (catch_error fl providers handlers f args kwargs).2.1 =
      plogs ++ add_error_log fl (triggerMsg E)
          [("func_name", f.name), ("func_path", f.path)]
        ++ (dispatchHandlers handlers E (mkCtx f args kwargs)).1 := by
    simp [catch_error, hpw]
  rw [htrace, List.count_append, List.count_append]
  have hplogs : plogs.count (triggerRec f E) = 0 := by
    apply count_eq_zero_of_all_info _ rfl
    intro r hr
    exact pingWrapped_logs_info fl providers f args kwargs r
      (by rw [hpw]; exact hr)
  have hlog : add_error_log fl (triggerMsg E)
      [("func_name", f.name), ("func_path", f.path)] = [triggerRec f E] := by
    simp [add_error_log, hdbg, triggerRec]
  have herr : (add_error_log fl (triggerMsg E)
      [("func_name", f.name), ("func_path", f.path)]).count
        (triggerRec f E) = 1 := by
    rw [hlog]
    simp
  have hhl : ((dispatchHandlers handlers E (mkCtx f args kwargs)).1).count
      (triggerRec f E) = 0 := by
    rcases dispatchHandlers_logs_cases handlers E (mkCtx f args kwargs) with
      hnil | ⟨p, hp, heq⟩
    · rw [hnil]
      simp
    · rw [heq]
      exact List.count_eq_zero.mpr (hh p hp)
  rw [hplogs, herr, hhl]

/-- Witness for C3: a failing target with one (recovering) handler; exactly
one TRIGGER record is in the trace. -/
theorem catch_error_single_error_record_witness :
    (pingWrapped ⟨true, false⟩ ([] : List (Provider Nat)) fRaisesVal
        [] []).2.2 = Except.error excValX
    ∧ ((catch_error ⟨true, false⟩ [] [(ExcType.valueError, hVal)] fRaisesVal
        [] []).2.1).count (triggerRec fRaisesVal excValX) = 1 := by
  refine ⟨rfl, ?_⟩
  apply catch_error_single_error_record ⟨true, false⟩ []
    [(ExcType.valueError, hVal)] fRaisesVal [] [] excValX rfl rfl
  intro p hp
  rcases List.mem_singleton.mp hp with h
  subst h
  simp [hVal]

/-- C8 counterexample: with the diagnostics flag DEBUG disabled but PING
enabled, a `catch_error`-wrapped call still invokes the registered provider,
and when that provider raises the call's outcome even differs from the
unwrapped function's (which would return 7) — so the wrapped call is not
observably identical to the unwrapped one and providers are invoked. -/
theorem diagnostics_disabled_not_transparent :
    (Flags.mk false true).DEBUG = false
    ∧ (catch_error ⟨false, true⟩ [provRaise]
        ([] : List (ExcType × HandlerFn Nat)) fOk [] []).1 =
        [Ev.prov "prov_raise"]
    ∧ fOk.run [] [] = Except.ok 7
    ∧ (catch_error ⟨false, true⟩ [provRaise]
        ([] : List (ExcType × HandlerFn Nat)) fOk [] []).2.2 =
        Except.error excProvBoom :=
  ⟨rfl, rfl, rfl, rfl⟩

/-- C8 (amended): with the diagnostics flag DEBUG disabled, a wrapped call
emits no log record at all (given that its handlers, like all handlers in
the code base, log only through the DEBUG-gated `LogManager`);
`light_toolbox` is exactly the unwrapped function; and when ping collection
is also disabled the `catch_error` wrapper invokes no provider, runs the
target exactly once, and returns the target's result unchanged on success —
only handler dispatch remains active on failure. -/
theorem diagnostics_disabled_amended {ρ : Type} (fl : Flags)
    (providers : List (Provider ρ)) (handlers : List (ExcType × HandlerFn ρ))
    (f : Func ρ) (args : List Arg) (kwargs : List (String × Arg))
    (hdbg : fl.DEBUG = false)
    (hh : ∀ p ∈ handlers, ∀ e : Exc,
      (p.2 e (mkCtx f args kwargs)).1 = []) :
    (catch_error fl providers handlers f args kwargs).2.1 = []
    ∧ light_toolbox fl providers f args kwargs =
        ([Ev.target], [], f.run args kwargs)
    ∧ (fl.PING = false →
        (catch_error fl providers handlers f args kwargs).1 = [Ev.target]
        ∧ ∀ v, f.run args kwargs = Except.ok v →
            (catch_error fl providers handlers f args kwargs).2.2 =
              Except.ok v) := by
  refine ⟨?_, ?_, ?_⟩
  · rcases hpw : pingWrapped fl providers f args kwargs with ⟨evs, plogs, res⟩
    have hplogs : plogs = [] := by
      have := pingWrapped_logs_nil fl providers f args kwargs hdbg
      rw [hpw] at this
      exact this
    subst hplogs
    cases res with
    | ok v => simp [catch_error, hpw]
    | error e =>
      have helogs : add_error_log fl (triggerMsg e)
          [("func_name", f.name), ("func_path", f.path)] = [] := by
        simp [add_error_log, hdbg]
      have hhl : (dispatchHandlers handlers e (mkCtx f args kwargs)).1 = [] := by
        rcases dispatchHandlers_logs_cases handlers e (mkCtx f args kwargs) with
          hnil | ⟨p, hp, heq⟩
        · exact hnil
        · rw [heq]
          exact hh p hp e
      simp [catch_error, hpw, helogs, hhl]
  · simp [light_toolbox, hdbg]
  · intro hping
    have hpw : pingWrapped fl providers f args kwargs =
        ([Ev.target], [], f.run args kwargs) := by
      simp [pingWrapped, hping]
    cases hrun : f.run args kwargs with
    | ok v =>
      rw [hrun] at hpw
      constructor
      · simp [catch_error, hpw]
      · intro w hw
        injection hw with hvw
        subst hvw
        simp [catch_error, hpw]
    | error e =>
      rw [hrun] at hpw
      constructor
      · simp [catch_error, hpw]
      · intro w hw
        exact absurd hw (by simp)

/-- Witness for the amended C8: both flags off, a provider that would log,
a failing target and a recovering handler — no log record, no provider
event, and handler dispatch still recovers the call. -/
theorem diagnostics_disabled_amended_witness :
    (Flags.mk false false).DEBUG = false
    ∧ (catch_error ⟨false, false⟩ [provA] [(ExcType.valueError, hVal)]
        fRaisesVal [] []).2.1 = []
    ∧ light_toolbox ⟨false, false⟩ [provA] fRaisesVal [] [] =
        ([Ev.target], [], fRaisesVal.run [] [])
    ∧ (catch_error ⟨false, false⟩ [provA] [(ExcType.valueError, hVal)]
        fRaisesVal [] []).1 = [Ev.target]
    ∧ (catch_error ⟨false, false⟩ [provA] [(ExcType.valueError, hVal)]
        fRaisesVal [] []).2.2 = Except.ok 22 := by
  have hh : ∀ p ∈ [(ExcType.valueError, hVal)], ∀ e : Exc,
      (p.2 e (mkCtx fRaisesVal [] [])).1 = [] := by
    intro p hp e
    rcases List.mem_singleton.mp hp with h
    subst h
    simp [hVal]
  have h := diagnostics_disabled_amended ⟨false, false⟩ [provA]
    [(ExcType.valueError, hVal)] fRaisesVal [] [] rfl hh
  exact ⟨rfl, h.1, h.2.1, (h.2.2 rfl).1, rfl⟩

theorem runProviders_no_target {ρ : Type} (f : Func ρ) (args : List Arg)
    (kwargs : List (String × Arg)) (providers : List (Provider ρ)) :
    Ev.target ∉ (runProviders f args kwargs providers).1 := by
  induction providers with
  | nil => simp [runProviders]
  | cons p ps ih =>
    cases hpr : p.run f args kwargs with
    | error e => simp [runProviders, hpr]
    | ok payload =>
      simp only [runProviders, hpr, List.mem_cons]
      intro hmem
      rcases hmem with h | h
      · exact Ev.noConfusion h
      · exact ih h

/-- C10: if ping collection is enabled and a registered provider raises
during the pre-call sweep of a `catch_error`-wrapped call, the target is
never invoked, the TRIGGER error record for the provider's exception is
emitted, and the provider's exception is dispatched through the handler
table exactly as a target failure would be (first matching entry wins, or
the exception is re-raised unchanged when none matches). -/
theorem provider_failure_like_target_failure {ρ : Type} (fl : Flags)
    (providers : List (Provider ρ)) (handlers : List (ExcType × HandlerFn ρ))
    (f : Func ρ) (args : List Arg) (kwargs : List (String × Arg)) (Ep : Exc)
    (evs : List Ev)
    (hdbg : fl.DEBUG = true) (hping : fl.PING = true)
    (hprov : runProviders f args kwargs providers = (evs, Except.error Ep)) :
    Ev.target ∉ (catch_error fl providers handlers f args kwargs).1
    ∧ triggerRec f Ep ∈ (catch_error fl providers handlers f args kwargs).2.1
    ∧ (∀ i (hi : i < handlers.length),
        isinstance Ep (handlers.get ⟨i, hi⟩).1 = true →
        (∀ j (hj : j < i),
          isinstance Ep (handlers.get ⟨j, Nat.lt_trans hj hi⟩).1 = false) →
        (catch_error fl providers handlers f args kwargs).2.2 =
          ((handlers.get ⟨i, hi⟩).2 Ep (mkCtx f args kwargs)).2)
    ∧ ((∀ p ∈ handlers, isinstance Ep p.1 = false) →
        (catch_error fl providers handlers f args kwargs).2.2 =
          Except.error Ep) := by
  have hpw : pingWrapped fl providers f args kwargs =
      (evs, [], Except.error Ep) := by
    simp [pingWrapped, hping, hprov]
  have hfail : (pingWrapped fl providers f args kwargs).2.2 =
      Except.error Ep := by
    rw [hpw]
  have hres := catch_error_result_failed fl providers handlers f args kwargs
    Ep hfail
  refine ⟨?_, ?_, ?_, ?_⟩
  · have hevs : (catch_error fl providers handlers f args kwargs).1 = evs := by
      simp [catch_error, hpw]
    rw [hevs]
    have := runProviders_no_target f args kwargs providers
    rw [hprov] at this
    exact this
  · have htrace : (catch_error fl providers handlers f args kwargs).2.1 =
        [] ++ add_error_log fl (triggerMsg Ep)
            [("func_name", f.name), ("func_path", f.path)]
          ++ (dispatchHandlers handlers Ep (mkCtx f args kwargs)).1 := by
      simp [catch_error, hpw]
    rw [htrace]
    have hlog : add_error_log fl (triggerMsg Ep)
        [("func_name", f.name), ("func_path", f.path)] = [triggerRec f Ep] := by
      simp [add_error_log, hdbg, triggerRec]
    rw [hlog]
    simp
  · intro i hi hpi hmin
    rw [hres, dispatchHandlers_first_match handlers Ep _ i hi hpi hmin]
  · intro hnone
    rw [hres, dispatchHandlers_no_match handlers Ep _ hnone]

/-- Witness for C10: a raising provider ahead of a healthy target, with a
matching `TypeError` handler: the target never runs, the TRIGGER record for
the provider's exception is emitted, and the handler's result becomes the
call's result. -/
theorem provider_failure_witness :
    runProviders fOk ([] : List Arg) [] [provRaise] =
        ([Ev.prov "prov_raise"], Except.error excProvBoom)
    ∧ Ev.target ∉ (catch_error ⟨true, true⟩ [provRaise]
        [(ExcType.typeError, hKey)] fOk [] []).1
    ∧ triggerRec fOk excProvBoom ∈ (catch_error ⟨true, true⟩ [provRaise]
        [(ExcType.typeError, hKey)] fOk [] []).2.1
    ∧ (catch_error ⟨true, true⟩ [provRaise]
        [(ExcType.typeError, hKey)] fOk [] []).2.2 = Except.ok 33 := by
  have h := provider_failure_like_target_failure ⟨true, true⟩ [provRaise]
    [(ExcType.typeError, hKey)] fOk [] [] excProvBoom
    [Ev.prov "prov_raise"] rfl rfl rfl
  refine ⟨rfl, h.1, h.2.1, ?_⟩
  have hfirst := h.2.2.1 0 (by simp) rfl (by intro j hj; omega)
  rw [hfirst]
  rfl

/-- C9 (code bug): the composer's fold does realize the hook sequence the
claim and the spec prescribe — A.pre, B.pre, the target once, B.post,
A.post, each post hook receiving the result — but the program cannot
exhibit it: importing the module raises `NameError` (the class names the
undefined base `ErrorManager`), decoration under `DEBUG` and `PING` raises
`AttributeError` (no `get_ping` method exists), and in the flag
configurations where decoration does return a callable, every invocation
produces exactly the claimed hook sequence and then raises `AttributeError`
(no `display_logs` method exists) instead of returning the result. -/
theorem aop_composer_broken {α ρ : Type} (nA nB pA pB : String) (t : α → ρ)
    (a : α) :
    aopModuleImport =
        Except.error ⟨ExcType.nameError, "name 'ErrorManager' is not defined"⟩
    ∧ toolboxCall ⟨true, true⟩ [⟨some nA, some pA⟩, ⟨some nB, some pB⟩] t =
        Except.error ⟨ExcType.attributeError,
          "'ToolBox' object has no attribute 'get_ping'"⟩
    ∧ toolboxCall ⟨false, false⟩ [⟨some nA, some pA⟩, ⟨some nB, some pB⟩] t =
        Except.ok (finalWrapper [⟨some nA, some pA⟩, ⟨some nB, some pB⟩] t)
    ∧ toolboxCall ⟨true, false⟩ [⟨some nA, some pA⟩, ⟨some nB, some pB⟩] t =
        Except.ok (finalWrapper [⟨some nA, some pA⟩, ⟨some nB, some pB⟩] t)
    ∧ toolboxCall ⟨false, true⟩ [⟨some nA, some pA⟩, ⟨some nB, some pB⟩] t =
        Except.ok (finalWrapper [⟨some nA, some pA⟩, ⟨some nB, some pB⟩] t)
    ∧ (finalWrapper [⟨some nA, some pA⟩, ⟨some nB, some pB⟩] t a).1 =
        [AEv.pre nA, AEv.pre nB, AEv.targetRun, AEv.post pB (t a),
         AEv.post pA (t a)]
    ∧ (finalWrapper [⟨some nA, some pA⟩, ⟨some nB, some pB⟩] t a).2 =
        Except.error ⟨ExcType.attributeError,
          "'LogManager' object has no attribute 'display_logs'"⟩ :=
  ⟨rfl, rfl, rfl, rfl, rfl, rfl, rfl⟩

end SassToolbox
